import Mathlib

/-!
Verification of the training/evaluation orchestration engine of
`weaver/utils/nn/tools.py`.

The Python source works on torch tensors and numpy arrays.  We embed the
ranks that actually occur as nested lists: a rank-1 tensor is a `List α`,
a rank-2 tensor a `List (List α)` (list of rows), a rank-3 tensor a
`List (List (List α))`.  Machine floats are modelled as exact rationals
(`ℚ`); integer labels as `ℤ`.  Fallible numpy/torch operations (invalid
axes, too many indices, reshape mismatches) return `Except String`.
-/

deriving instance DecidableEq for Except

namespace Weaver

/-- Length of the first row of a matrix; for a rectangular (non-empty)
matrix this is the length of every row, i.e. the second dimension. -/
def innerLen : List (List α) → Nat
  | [] => 0
  | r :: _ => r.length

/-- Boolean masking `xs[bs]` of a flat tensor by an equally long flat
boolean tensor: keep the entries at the positions where the mask is true,
in order. -/
def applyMask (xs : List α) (bs : List Bool) : List α :=
  ((xs.zip bs).filter (fun p => p.2)).map (fun p => p.1)

/-- Matrix transpose of a rectangular `s` (rows of length `innerLen s`):
column `c` of `s` becomes row `c` of the result.  This models
`torch.transpose` of the two axes of a rank-2 slice and also
`torch.column_stack` (stacking k columns of length n into an n × k
matrix is transposing the k × n list of columns). -/
def transposeMat (s : List (List α)) : List (List α) :=
  (List.range (innerLen s)).map (fun c => s.filterMap (fun row => row[c]?))

/-- Index of the first largest entry of a row, as returned by
`tensor.max(1)` / `ndarray.argmax(1)` for that row. -/
def argmaxIdx (row : List ℚ) : Nat :=
  (row.foldl
    (fun (acc : Nat × Nat × Option ℚ) x =>
      match acc with
      | (best, next, none) => (best, next + 1, some x)
      | (best, next, some bv) =>
          if bv < x then (next, next + 1, some x) else (best, next + 1, some bv))
    (0, 0, none)).1

/-- Number of positions where the predicted class equals the true label:
`(preds == label).sum().item()`. -/
def countMatches (preds : List Nat) (label : List ℤ) : Nat :=
  ((preds.zip label).filter (fun p => (p.1 : ℤ) == p.2)).length

/-- Splitting a flat list into consecutive groups of the given sizes;
this is the core of `ak.unflatten(array, counts)`. -/
def unflattenBy : List Nat → List α → List (List α)
  | [], _ => []
  | c :: cs, xs => xs.take c :: unflattenBy cs (xs.drop c)

/-- Models `ak.unflatten(xs, cs)`, which demands that the counts consume
the array exactly. -/
def akUnflatten (xs : List α) (cs : List Nat) : Except String (List (List α)) :=
  if cs.sum = xs.length then .ok (unflattenBy cs xs)
  else .error "ValueError: structure imposed by counts does not fit in the array"

/-- Appending a block to the entry of key `k` of a `defaultdict(list)`
(creating the entry when absent). -/
def appendAssoc (acc : List (String × List β)) (k : String) (v : List β) :
    List (String × List β) :=
  match acc with
  | [] => [(k, v)]
  | (k2, vs) :: rest =>
      if k2 = k then (k2, vs ++ v) :: rest else (k2, vs) :: appendAssoc rest k v

/-- Dictionary lookup `y[k]` that raises `KeyError` when the key is
absent. -/
def lookupE (y : List (String × α)) (k : String) : Except String α :=
  match y.lookup k with
  | some v => .ok v
  | none => .error "KeyError"

/-- Tensors of the ranks the engine manipulates. -/
inductive Tensor (α : Type) where
  | t1 : List α → Tensor α
  | t2 : List (List α) → Tensor α
  | t3 : List (List (List α)) → Tensor α
deriving Repr, DecidableEq

namespace Tensor

/-- Number of axes, `tensor.ndim`. -/
def ndim : Tensor α → Nat
  | .t1 _ => 1
  | .t2 _ => 2
  | .t3 _ => 3

/-- Size of the leading axis, `tensor.shape[0]` (= `len(tensor)`). -/
def len : Tensor α → Nat
  | .t1 xs => xs.length
  | .t2 xss => xss.length
  | .t3 xsss => xsss.length

/-- Row-major flattening `tensor.view(-1)`. -/
def flat : Tensor α → List α
  | .t1 xs => xs
  | .t2 xss => xss.flatten
  | .t3 xsss => (xsss.map List.flatten).flatten

/-- Elementwise map, e.g. `tensor.bool()` as a map to `Bool`. -/
def map (f : α → β) : Tensor α → Tensor β
  | .t1 xs => .t1 (xs.map f)
  | .t2 xss => .t2 (xss.map (·.map f))
  | .t3 xsss => .t3 (xsss.map (·.map (·.map f)))

end Tensor

/-- Row list of a rank-2 tensor. -/
def Tensor.rows : Tensor α → List (List α)
  | .t2 r => r
  | .t1 _ => []
  | .t3 _ => []

/-- Models `_flatten_label(label, mask)`: when the label has rank > 1 it
is flattened row-major to rank 1 and, if a mask is supplied, filtered by
the identically flattened mask; a rank-1 label is returned as-is (the
mask is not applied in that case, exactly as in the source). -/
def flatten_label (label : Tensor α) (mask : Option (Tensor Bool)) : Tensor α :=
  if label.ndim > 1 then
    match mask with
    | none => .t1 label.flat
    | some m => .t1 (applyMask label.flat m.flat)
  else label

/-- Models `_flatten_preds(preds, mask, label_axis=1)`: only when the
prediction has rank > 2 is the class axis (axis 1) transposed to the
last axis, the rest collapsed row-major to a rank-2 tensor, and the mask
applied as a row filter.  A rank-1 or rank-2 prediction is returned
untouched — even when a mask is supplied. -/
def flatten_preds (preds : Tensor α) (mask : Option (Tensor Bool)) : Tensor α :=
  match preds with
  | .t3 cube =>
      let rows := (cube.map transposeMat).flatten
      match mask with
      | none => .t2 rows
      | some m => .t2 (applyMask rows m.flat)
  | other => other

/-- Per-position class-score rows of a rank-3 prediction of shape
(n, C, m): entry `r*m + c` is the C-vector of class scores at sequence
position (r, c).  This is exactly the row list `_flatten_preds` builds
before masking. -/
def classVecs (cube : List (List (List α))) : List (List α) :=
  (cube.map transposeMat).flatten

/-- Classification block `row[0:num_classes]` of one hybrid output row. -/
def hybridCatSlice (nc : Nat) (row : List α) : List α :=
  row.take nc

/-- Regression block `row[num_classes:num_classes+num_targets]` of one
hybrid output row. -/
def hybridRegSlice (nc nt : Nat) (row : List α) : List α :=
  (row.drop nc).take nt

/-- Models `v.reshape((d0, -1))` of a flat numpy array: the length must
be divisible by `d0`, else numpy raises `ValueError`. -/
def reshape2 (xs : List α) (d0 : Nat) : Except String (List (List α)) :=
  if 0 < d0 ∧ xs.length % d0 = 0 then
    .ok (unflattenBy (List.replicate d0 (xs.length / d0)) xs)
  else .error "ValueError: cannot reshape array"

/-- Models `a.reshape((d0, d1, -1))` of a rank-2 array `a` (a list of
rows): the row count must equal `d0 * d1`; the last dimension is
inferred as the row width. -/
def reshape3 (rows : List (List α)) (d0 d1 : Nat) :
    Except String (List (List (List α))) :=
  if rows.length = d0 * d1 then .ok (unflattenBy (List.replicate d0 d1) rows)
  else .error "ValueError: cannot reshape array"

/-- Element `a[i][j][k]` of a rank-3 nested list, when present. -/
def get3 (a : List (List (List α))) (i j k : Nat) : Option α :=
  (a[i]?.bind (·[j]?)).bind (·[k]?)

/-- Size of axis `ax` of a rank-3 rectangular nested list. -/
def dim3 (a : List (List (List α))) (ax : Nat) : Nat :=
  if ax = 0 then a.length
  else if ax = 1 then innerLen a
  else innerLen (a.flatten)

/-- Models `ndarray.transpose(axes)` on a rank-3 array.  NumPy requires
`axes` to be a permutation of (0, 1, 2) and otherwise raises
`ValueError: axes dont match array`; for a valid permutation, the entry
of the result at index (i0, i1, i2) is the entry of `a` whose index at
axis `axes[p]` is `i_p`. -/
def npTranspose3 (axes : List Nat) (a : List (List (List α))) :
    Except String (List (List (List α))) :=
  match axes with
  | [p0, p1, p2] =>
      if p0 < 3 ∧ p1 < 3 ∧ p2 < 3 ∧ p0 ≠ p1 ∧ p0 ≠ p2 ∧ p1 ≠ p2 then
        let oldIdx := fun (i j k ax : Nat) =>
          if p0 = ax then i else if p1 = ax then j else k
        .ok ((List.range (dim3 a p0)).map (fun i =>
          (List.range (dim3 a p1)).map (fun j =>
            (List.range (dim3 a p2)).filterMap (fun k =>
              get3 a (oldIdx i j k 0) (oldIdx i j k 1) (oldIdx i j k 2)))))
      else .error "ValueError: axes dont match array"
  | _ => .error "ValueError: axes dont match array"

/-- Result of the score regrouping of `evaluate_classification` (lines
239-250): either the flat rank-2 score array untouched, a jagged
per-entry regrouping, or the reshaped-and-transposed rank-3 form. -/
inductive ScoresOut where
  | flat : List (List ℚ) → ScoresOut
  | jagged : List (List (List ℚ)) → ScoresOut
  | reshaped : List (List (List ℚ)) → ScoresOut
deriving Repr, DecidableEq

/-- Result of the label regrouping of `evaluate_classification` for one
label key. -/
inductive LabelOut where
  | flat : List ℤ → LabelOut
  | jagged : List (List ℤ) → LabelOut
  | reshaped : List (List ℤ) → LabelOut
deriving Repr, DecidableEq

/-- Models the `labels[k] = ak.unflatten(v, labels_counts)` loop of the
conversion block. -/
def convertLabelsJagged (labelsCounts : List Nat) :
    List (String × List ℤ) → Except String (List (String × LabelOut))
  | [] => .ok []
  | p :: rest =>
      match akUnflatten p.2 labelsCounts with
      | .error e => .error e
      | .ok g =>
          match convertLabelsJagged labelsCounts rest with
          | .error e => .error e
          | .ok ls => .ok ((p.1, LabelOut.jagged g) :: ls)

/-- Models the `labels[k] = v.reshape((entry_count, -1))` loop of the
conversion block. -/
def convertLabelsReshaped (entryCount : Nat) :
    List (String × List ℤ) → Except String (List (String × LabelOut))
  | [] => .ok []
  | p :: rest =>
      match reshape2 p.2 entryCount with
      | .error e => .error e
      | .ok m =>
          match convertLabelsReshaped entryCount rest with
          | .error e => .error e
          | .ok ls => .ok ((p.1, LabelOut.reshaped m) :: ls)

/-- Models the end-of-pass conversion block of `evaluate_classification`
(the `if len(scores) != entry_count:` block): with recorded per-entry
counts the flat scores and every label array are regrouped jaggedly with
`ak.unflatten`; with no recorded counts the scores are reshaped to
(entry_count, count/entry_count, -1) and passed to
`ndarray.transpose((1, 2))`, and the labels reshaped to
(entry_count, -1); when the flat count equals the entry count nothing is
regrouped. -/
def convertEvalOutputs (scores : List (List ℚ)) (labelsAcc : List (String × List ℤ))
    (entryCount count : Nat) (labelsCounts : List Nat) :
    Except String (ScoresOut × List (String × LabelOut)) :=
  if scores.length ≠ entryCount then
    if labelsCounts.length ≠ 0 then
      match akUnflatten scores labelsCounts with
      | .error e => .error e
      | .ok s =>
          match convertLabelsJagged labelsCounts labelsAcc with
          | .error e => .error e
          | .ok ls => .ok (.jagged s, ls)
    else
      if count % entryCount = 0 then
        match reshape3 scores entryCount (count / entryCount) with
        | .error e => .error e
        | .ok cube =>
            match npTranspose3 [1, 2] cube with
            | .error e => .error e
            | .ok t =>
                match convertLabelsReshaped entryCount labelsAcc with
                | .error e => .error e
                | .ok ls => .ok (.reshaped t, ls)
      else .error "AssertionError: count is not a multiple of entry_count"
  else
    .ok (.flat scores, labelsAcc.map (fun p => (p.1, LabelOut.flat p.2)))

/-- Shared label extraction of the classification loops (train lines
63-68, eval lines 170-178): `y[label_names[0]].long()` (KeyError when
absent is fatal), then `y[label_names[0] + "_mask"].bool()` guarded by
`try/except KeyError` (absence yields no mask), then `_flatten_label`.
Returns the flattened label together with the mask that was found. -/
def extractClassLabel (truths : List (String × Tensor ℤ)) (labelName : String) :
    Except String (Tensor ℤ × Option (Tensor Bool)) :=
  match lookupE truths labelName with
  | .error e => .error e
  | .ok raw =>
      let mask := (truths.lookup (labelName ++ "_mask")).map (Tensor.map (fun v => v != 0))
      .ok (flatten_label raw mask, mask)

/-- One batch consumed by the classification loops: the truth mapping
`y`, the raw model output (the external model contract), the scalar the
external loss function returns on this batch, and the observer mapping
`Z`. -/
structure ClassBatch where
  truths : List (String × Tensor ℤ)
  modelOutput : Tensor ℚ
  loss : ℚ
  observers : List (String × List ℚ)
deriving Repr, DecidableEq

/-- Running statistics of `train_classification`. -/
structure ClassTrainStats where
  total_loss : ℚ
  num_batches : Nat
  count : Nat
  total_correct : Nat
  labelCounter : List ℤ
deriving Repr, DecidableEq

/-- Fresh accumulator at the start of a training epoch. -/
def initClassTrainStats : ClassTrainStats :=
  ⟨0, 0, 0, 0, []⟩

/-- Flattened logits as a row list; `logits.max(1)` and
`torch.softmax(logits, dim=1)` require at least two axes and raise an
IndexError otherwise. -/
def logitRows (preds : Tensor ℚ) (mask : Option (Tensor Bool)) :
    Except String (List (List ℚ)) :=
  match flatten_preds preds mask with
  | .t2 rows => .ok rows
  | _ => .error "IndexError: dimension 1 out of range for a rank-1 tensor"

/-- One iteration of the `train_classification` batch loop: extract and
flatten the label, count the examples, flatten the predictions with the
same mask, take the external loss value, and accumulate
`total_loss += loss`, `num_batches += 1`, `count += num_examples`,
`total_correct += (preds == label).sum()` (backward/optimizer steps act
on external state only). -/
def train_classification_step (labelName : String) (s : ClassTrainStats)
    (b : ClassBatch) : Except String ClassTrainStats :=
  match extractClassLabel b.truths labelName with
  | .error e => .error e
  | .ok (label, mask) =>
      let numExamples := label.len
      match logitRows b.modelOutput mask with
      | .error e => .error e
      | .ok rows =>
          let preds := rows.map argmaxIdx
          let correct := countMatches preds label.flat
          .ok ⟨s.total_loss + b.loss, s.num_batches + 1, s.count + numExamples,
               s.total_correct + correct, s.labelCounter ++ label.flat⟩

/-- Number of examples one classification batch contributes: the length
of its flattened, mask-filtered label. -/
def classBatchExamples (labelName : String) (b : ClassBatch) : Nat :=
  match extractClassLabel b.truths labelName with
  | .ok r => r.1.len
  | .error _ => 0

/-- Whether `steps_per_epoch is not None and num_batches >= steps_per_epoch`. -/
def budgetReached : Option Nat → Nat → Bool
  | some k, n => k ≤ n
  | none, _ => false

/-- The `train_classification` batch loop with its step budget: after
each completed batch the loop breaks when the budget is reached. -/
def train_classification_loop (labelName : String) (stepsPerEpoch : Option Nat)
    (s : ClassTrainStats) : List ClassBatch → Except String ClassTrainStats
  | [] => .ok s
  | b :: rest =>
      match train_classification_step labelName s b with
      | .error e => .error e
      | .ok s2 =>
          if budgetReached stepsPerEpoch s2.num_batches then .ok s2
          else train_classification_loop labelName stepsPerEpoch s2 rest

/-- Per-entry valid counts `np.squeeze(label_mask.numpy().sum(axis=-1))`
recorded for one batch: for a rank-2 mask, the number of true positions
of each row; for a rank-1 mask the sum collapses to a single number. -/
def maskCounts : Tensor Bool → List Nat
  | .t1 xs => [xs.count true]
  | .t2 rows => rows.map (·.count true)
  | .t3 cube => (cube.map (fun s => s.map (·.count true))).flatten

/-- Running state of the `evaluate_classification` batch loop.  The
per-batch `np.ndarray` blocks appended to `scores` / to each label,
observer list are kept already concatenated, which is what the
`np.concatenate` / `_concat` calls at the end of the pass produce. -/
structure ClassEvalState where
  total_loss : ℚ
  num_batches : Nat
  count : Nat
  total_correct : Nat
  entry_count : Nat
  labelCounter : List ℤ
  scores : List (List ℚ)
  labelsAcc : List (String × List ℤ)
  targetsAcc : List (String × List ℚ)
  labels_counts : List Nat
  observersAcc : List (String × List ℚ)
deriving Repr, DecidableEq

/-- Fresh accumulator at the start of an evaluation pass.  `targets` is
created as an empty `defaultdict(list)`. -/
def initClassEvalState : ClassEvalState :=
  ⟨0, 0, 0, 0, 0, [], [], [], [], [], []⟩

/-- One iteration of the `evaluate_classification` batch loop (lines
167-214).  `sm` abstracts `torch.softmax(·, dim=1)` applied to one
logit row — a transcendental floating-point map that has no exact
rational embedding.  The entry count grows by the leading dimension of
the raw label; when a mask exists and the pass is not for training, its
per-entry valid counts are recorded; every truth array is flattened with
the same mask and appended under its key; observers are collected only
when not for training; the loss is weighted by the example count. -/
def evaluate_classification_step (labelName : String) (forTraining : Bool)
    (sm : List ℚ → List ℚ) (st : ClassEvalState) (b : ClassBatch) :
    Except String ClassEvalState :=
  match lookupE b.truths labelName with
  | .error e => .error e
  | .ok rawLabel =>
      let entry_count := st.entry_count + rawLabel.len
      let mask := (b.truths.lookup (labelName ++ "_mask")).map (Tensor.map (fun v => v != 0))
      let labels_counts :=
        match mask with
        | some m => if forTraining then st.labels_counts else st.labels_counts ++ maskCounts m
        | none => st.labels_counts
      let label := flatten_label rawLabel mask
      let numExamples := label.len
      match logitRows b.modelOutput mask with
      | .error e => .error e
      | .ok rows =>
          let scores := st.scores ++ rows.map sm
          let labelsAcc := b.truths.foldl
            (fun acc p => appendAssoc acc p.1 (flatten_label p.2 mask).flat) st.labelsAcc
          let observersAcc :=
            if forTraining then st.observersAcc
            else b.observers.foldl (fun acc p => appendAssoc acc p.1 p.2) st.observersAcc
          let preds := rows.map argmaxIdx
          let correct := countMatches preds label.flat
          .ok ⟨st.total_loss + b.loss * numExamples, st.num_batches + 1,
               st.count + numExamples, st.total_correct + correct, entry_count,
               st.labelCounter ++ label.flat, scores, labelsAcc, st.targetsAcc,
               labels_counts, observersAcc⟩

/-- The `evaluate_classification` batch loop with its step budget. -/
def evaluate_classification_loop (labelName : String) (forTraining : Bool)
    (sm : List ℚ → List ℚ) (stepsPerEpoch : Option Nat) (st : ClassEvalState) :
    List ClassBatch → Except String ClassEvalState
  | [] => .ok st
  | b :: rest =>
      match evaluate_classification_step labelName forTraining sm st b with
      | .error e => .error e
      | .ok st2 =>
          if budgetReached stepsPerEpoch st2.num_batches then .ok st2
          else evaluate_classification_loop labelName forTraining sm stepsPerEpoch st2 rest

/-- Value returned by `evaluate_classification`: the scalar accuracy
alone when for training, otherwise the accuracy together with the
(possibly regrouped) scores, the labels, the (never written) targets and
the observers. -/
inductive ClassEvalReturn where
  | trainSummary : ℚ → ClassEvalReturn
  | full : ℚ → ScoresOut → List (String × LabelOut) →
      List (String × List ℚ) → List (String × List ℚ) → ClassEvalReturn
deriving Repr, DecidableEq

/-- Targets component of a full evaluation return value. -/
def ClassEvalReturn.targetsOf : ClassEvalReturn → Option (List (String × List ℚ))
  | .full _ _ _ t _ => some t
  | .trainSummary _ => none

/-- Models `evaluate_classification`: run the loop, fail like
`np.concatenate([])` does when no batch was processed, report
`total_correct / count`, and in the not-for-training case regroup the
scores and labels per the conversion block and return the five
components. -/
def evaluate_classification (labelName : String) (forTraining : Bool)
    (sm : List ℚ → List ℚ) (stepsPerEpoch : Option Nat) (batches : List ClassBatch) :
    Except String ClassEvalReturn :=
  match evaluate_classification_loop labelName forTraining sm stepsPerEpoch
      initClassEvalState batches with
  | .error e => .error e
  | .ok st =>
      if st.num_batches = 0 then
        .error "ValueError: need at least one array to concatenate"
      else
        let summary : ℚ := (st.total_correct : ℚ) / (st.count : ℚ)
        if forTraining then .ok (.trainSummary summary)
        else
          match convertEvalOutputs st.scores st.labelsAcc st.entry_count st.count
              st.labels_counts with
          | .error e => .error e
          | .ok (scoresOut, labelsOut) =>
              .ok (.full summary scoresOut labelsOut st.targetsAcc st.observersAcc)

/-- One batch of the regression evaluation loop: the target columns
`y[name].float()` in declared target order, the model output and loss
(external contracts), and the observers. -/
structure RegBatch where
  targetCols : List (List ℚ)
  modelOutput : Tensor ℚ
  loss : ℚ
  observers : List (String × List ℚ)
deriving Repr, DecidableEq

/-- Running state of the `evaluate_regression` batch loop. -/
structure RegEvalState where
  total_loss : ℚ
  num_batches : Nat
  count : Nat
  sum_abs_err : ℚ
  sum_sqr_err : ℚ
  scores : List (List ℚ)
  targetsAcc : List (String × List ℚ)
  observersAcc : List (String × List ℚ)
deriving Repr, DecidableEq

/-- Fresh accumulator for a regression evaluation pass. -/
def initRegEvalState : RegEvalState :=
  ⟨0, 0, 0, 0, 0, [], [], []⟩

/-- One iteration of the `evaluate_regression` batch loop (lines
450-497), modelled up to its first action on the stacked target.  The
loop builds `target` by column-stacking the declared target columns and
reads its example count, then executes
`target.to(devmnon_blocking=True)`; `devmnon_blocking` is not a keyword
of `Tensor.to` (the line is a typo for `.to(dev, non_blocking=True)`),
so every iteration raises `TypeError` before the forward pass. -/
def evaluate_regression_step (_st : RegEvalState) (b : RegBatch) :
    Except String RegEvalState :=
  let target := transposeMat b.targetCols
  let _numExamples := target.length
  .error "TypeError: to() got an unexpected keyword argument devmnon_blocking"

/-- The `evaluate_regression` batch loop. -/
def evaluate_regression_loop (st : RegEvalState) :
    List RegBatch → Except String RegEvalState
  | [] => .ok st
  | b :: rest =>
      match evaluate_regression_step st b with
      | .error e => .error e
      | .ok st2 => evaluate_regression_loop st2 rest

/-- Value returned by `evaluate_regression`: the average loss alone when
for training, otherwise the average loss with the concatenated scores,
the (never written) labels, the targets and the observers. -/
inductive RegEvalReturn where
  | trainSummary : ℚ → RegEvalReturn
  | full : ℚ → List (List ℚ) → List (String × List ℤ) →
      List (String × List ℚ) → List (String × List ℚ) → RegEvalReturn
deriving Repr, DecidableEq

/-- Models `evaluate_regression`: run the loop (whose every iteration
raises, see `evaluate_regression_step`), fail like `np.concatenate([])`
when no batch was processed, and otherwise return the scalar summary or
the five components. -/
def evaluate_regression (forTraining : Bool) (batches : List RegBatch) :
    Except String RegEvalReturn :=
  match evaluate_regression_loop initRegEvalState batches with
  | .error e => .error e
  | .ok st =>
      if st.num_batches = 0 then
        .error "ValueError: need at least one array to concatenate"
      else
        let summary : ℚ := st.total_loss / (st.count : ℚ)
        if forTraining then .ok (.trainSummary summary)
        else .ok (.full summary st.scores [] st.targetsAcc st.observersAcc)

/-- Raw output of a hybrid model for one batch: either the degenerate
rank-1 tensor or the regular rank-2 (examples × outputs) tensor. -/
inductive HybridOut where
  | rank1 : List ℚ → HybridOut
  | rank2 : List (List ℚ) → HybridOut
deriving Repr, DecidableEq

/-- One batch of the hybrid loops: the raw label tensor, the target
columns in declared order, the raw model output, the three scalars the
external hybrid loss function returns, and the observers. -/
structure HybridBatch where
  label : Tensor ℤ
  targetCols : List (List ℚ)
  modelOutput : HybridOut
  loss : ℚ
  lossCat : ℚ
  lossReg : ℚ
  observers : List (String × List ℚ)
deriving Repr, DecidableEq

/-- Running statistics of `train_hybrid`. -/
structure HybridTrainStats where
  total_loss : ℚ
  total_cat_loss : ℚ
  total_reg_loss : ℚ
  num_batches : Nat
  count : Nat
  total_correct : Nat
  sum_abs_err : ℚ
  sum_sqr_err : ℚ
  labelCounter : List ℤ
deriving Repr, DecidableEq

/-- Fresh accumulator at the start of a hybrid training epoch. -/
def initHybridTrainStats : HybridTrainStats :=
  ⟨0, 0, 0, 0, 0, 0, 0, 0, []⟩

/-- Componentwise combination of two hybrid accumulators (numeric fields
add, the label histogram concatenates). -/
def HybridTrainStats.add (s t : HybridTrainStats) : HybridTrainStats :=
  ⟨s.total_loss + t.total_loss, s.total_cat_loss + t.total_cat_loss,
   s.total_reg_loss + t.total_reg_loss, s.num_batches + t.num_batches,
   s.count + t.count, s.total_correct + t.total_correct,
   s.sum_abs_err + t.sum_abs_err, s.sum_sqr_err + t.sum_sqr_err,
   s.labelCounter ++ t.labelCounter⟩

/-- Sum of absolute residuals and sum of squared residuals of the
regression predictions against the stacked targets:
`(pred_reg - target).abs().sum()` and `.square().sum()`. -/
def residSums (predReg target : List (List ℚ)) : ℚ × ℚ :=
  let resid := (predReg.zip target).map (fun p => (p.1.zip p.2).map (fun q => q.1 - q.2))
  ((resid.map (fun r => (r.map (fun x => abs x)).sum)).sum,
   (resid.map (fun r => (r.map (fun x => x * x)).sum)).sum)

/-- One iteration of the `train_hybrid` batch loop (lines 650-751): the
label is flattened without a mask, the targets column-stacked, the
example count is the larger leading dimension, the three external loss
components and the label histogram are always accumulated, and then —
only when the raw output is not rank-1 (`if model_output.dim() == 1:
continue`) — the classification block is argmaxed against the label and
the regression block compared with the targets.  The squeezes on the
sliced blocks are identities for a regular (examples ≥ 2, widths ≥ 2)
batch and are elided. -/
def train_hybrid_step (nc nt : Nat) (s : HybridTrainStats) (b : HybridBatch) :
    HybridTrainStats :=
  let label := flatten_label b.label none
  let target := transposeMat b.targetCols
  let numExamples := max label.len target.length
  let s1 : HybridTrainStats :=
    ⟨s.total_loss + b.loss, s.total_cat_loss + b.lossCat,
     s.total_reg_loss + b.lossReg, s.num_batches + 1, s.count + numExamples,
     s.total_correct, s.sum_abs_err, s.sum_sqr_err,
     s.labelCounter ++ label.flat⟩
  match b.modelOutput with
  | .rank1 _ => s1
  | .rank2 rows =>
      let predCat := rows.map (fun r => argmaxIdx (hybridCatSlice nc r))
      let correct := countMatches predCat label.flat
      let predReg := rows.map (hybridRegSlice nc nt)
      let errs := residSums predReg target
      { s1 with total_correct := s1.total_correct + correct,
                sum_abs_err := s1.sum_abs_err + errs.1,
                sum_sqr_err := s1.sum_sqr_err + errs.2 }

/-- The `train_hybrid` batch loop with its step budget.  A degenerate
rank-1 batch reaches `continue` before the budget check, so the check is
skipped on such batches. -/
def train_hybrid_loop (nc nt : Nat) (stepsPerEpoch : Option Nat)
    (s : HybridTrainStats) : List HybridBatch → HybridTrainStats
  | [] => s
  | b :: rest =>
      let s2 := train_hybrid_step nc nt s b
      match b.modelOutput with
      | .rank1 _ => train_hybrid_loop nc nt stepsPerEpoch s2 rest
      | .rank2 _ =>
          if budgetReached stepsPerEpoch s2.num_batches then s2
          else train_hybrid_loop nc nt stepsPerEpoch s2 rest

/-- Models `model_output[:, :nc]`, the classification block of the raw
hybrid output: slicing a rank-1 tensor with two indices raises
IndexError. -/
def hybridSliceCat (out : HybridOut) (nc : Nat) : Except String (List (List ℚ)) :=
  match out with
  | .rank1 _ => .error "IndexError: too many indices for tensor of dimension 1"
  | .rank2 rows => .ok (rows.map (hybridCatSlice nc))

/-- Models `model_output[:, nc:nc+nt]`, the regression block of the raw
hybrid output: slicing a rank-1 tensor with two indices raises
IndexError. -/
def hybridSliceReg (out : HybridOut) (nc nt : Nat) : Except String (List (List ℚ)) :=
  match out with
  | .rank1 _ => .error "IndexError: too many indices for tensor of dimension 1"
  | .rank2 rows => .ok (rows.map (hybridRegSlice nc nt))

/-- Running state of the `evaluate_hybrid` batch loop. -/
structure HybridEvalState where
  total_loss : ℚ
  total_cat_loss : ℚ
  total_reg_loss : ℚ
  num_batches : Nat
  count : Nat
  entry_count : Nat
  total_correct : Nat
  sum_abs_err : ℚ
  sum_sqr_err : ℚ
  labelCounter : List ℤ
  scoresCat : List (List ℚ)
  scoresReg : List (List ℚ)
  labelsAcc : List (String × List ℤ)
  targetsAcc : List (String × List ℚ)
  observersAcc : List (String × List ℚ)
deriving Repr, DecidableEq

/-- Fresh accumulator for a hybrid evaluation pass. -/
def initHybridEvalState : HybridEvalState :=
  ⟨0, 0, 0, 0, 0, 0, 0, 0, 0, [], [], [], [], [], []⟩

/-- One iteration of the `evaluate_hybrid` batch loop (lines 823-925).
The truth accumulators always grow; then the classification and
regression blocks are sliced from the raw output — an operation that
raises IndexError when the output is rank-1 — and when both sliced
blocks have as many rows as the batch has examples their argmax,
softmax (`sm`, abstracted as in `evaluate_classification_step`) and
values are recorded, otherwise zero-filled placeholders of the same
example count are appended and the batch earns no accuracy or residual
credit; the external loss components and the counters are accumulated
either way. -/
def evaluate_hybrid_step (labelName : String) (targetNames : List String)
    (nc nt : Nat) (forTraining : Bool) (sm : List ℚ → List ℚ)
    (st : HybridEvalState) (b : HybridBatch) : Except String HybridEvalState :=
  let label := flatten_label b.label none
  let target := transposeMat b.targetCols
  let numExamples := max label.len target.length
  let entry_count := st.entry_count + numExamples
  let labelsAcc := appendAssoc st.labelsAcc labelName label.flat
  let targetsAcc := (targetNames.zip b.targetCols).foldl
    (fun acc p => appendAssoc acc p.1 p.2) st.targetsAcc
  let observersAcc :=
    if forTraining then st.observersAcc
    else b.observers.foldl (fun acc p => appendAssoc acc p.1 p.2) st.observersAcc
  match hybridSliceCat b.modelOutput nc with
  | .error e => .error e
  | .ok predCatOut =>
      match hybridSliceReg b.modelOutput nc nt with
      | .error e => .error e
      | .ok predReg =>
          let shapeOk := predCatOut.length == numExamples && predReg.length == numExamples
          let predCat :=
            if shapeOk then predCatOut.map argmaxIdx else List.replicate numExamples 0
          let scoresCat :=
            if shapeOk then st.scoresCat ++ predCatOut.map sm
            else st.scoresCat ++ List.replicate numExamples (List.replicate nc (0 : ℚ))
          let scoresReg :=
            if shapeOk then st.scoresReg ++ predReg
            else st.scoresReg ++ List.replicate numExamples
              (if 1 < nt then List.replicate nt (0 : ℚ) else [(0 : ℚ)])
          let correct := if shapeOk then countMatches predCat label.flat else 0
          let errs := if shapeOk then residSums predReg target else (0, 0)
          .ok ⟨st.total_loss + b.loss, st.total_cat_loss + b.lossCat,
               st.total_reg_loss + b.lossReg, st.num_batches + 1,
               st.count + numExamples, entry_count, st.total_correct + correct,
               st.sum_abs_err + errs.1, st.sum_sqr_err + errs.2,
               st.labelCounter ++ label.flat, scoresCat, scoresReg,
               labelsAcc, targetsAcc, observersAcc⟩

/-! Helper lemmas. -/

theorem applyMask_nil_mask (xs : List α) : applyMask xs [] = [] := by
  simp [applyMask]

theorem applyMask_cons (x : α) (xs : List α) (b : Bool) (bs : List Bool) :
    applyMask (x :: xs) (b :: bs) =
      if b then x :: applyMask xs bs else applyMask xs bs := by
  cases b <;> simp [applyMask]

theorem applyMask_zip (xs : List α) :
    ∀ (ys : List β) (bs : List Bool), xs.length = ys.length →
      applyMask (xs.zip ys) bs = (applyMask xs bs).zip (applyMask ys bs) := by
  induction xs with
  | nil =>
      intro ys bs h
      cases ys with
      | nil => simp [applyMask]
      | cons y ys => simp at h
  | cons x xs ih =>
      intro ys bs h
      cases ys with
      | nil => simp at h
      | cons y ys =>
          cases bs with
          | nil => simp [applyMask]
          | cons b bs =>
              have hlen : xs.length = ys.length := by simpa using h
              cases b <;>
                simp [List.zip_cons_cons, applyMask_cons, ih ys bs hlen]

theorem applyMask_length_eq (xs : List α) :
    ∀ (ys : List β) (bs : List Bool), xs.length = ys.length →
      (applyMask xs bs).length = (applyMask ys bs).length := by
  induction xs with
  | nil =>
      intro ys bs h
      cases ys with
      | nil => rfl
      | cons y ys => simp at h
  | cons x xs ih =>
      intro ys bs h
      cases ys with
      | nil => simp at h
      | cons y ys =>
          cases bs with
          | nil => simp [applyMask]
          | cons b bs =>
              have hlen : xs.length = ys.length := by simpa using h
              cases b <;> simp [applyMask_cons, ih ys bs hlen]

theorem flatten_length_rect (m : Nat) :
    ∀ (g : List (List α)), (∀ r ∈ g, r.length = m) →
      g.flatten.length = g.length * m := by
  intro g
  induction g with
  | nil => intro _; simp
  | cons row rest ih =>
      intro h
      have hrow : row.length = m := h row (by simp)
      have hrest : ∀ r ∈ rest, r.length = m := fun r hr => h r (by simp [hr])
      simp [List.flatten_cons, hrow, ih hrest, Nat.succ_mul, Nat.add_comm]

theorem flatten_getElem_rect (m : Nat) :
    ∀ (g : List (List α)) (r c : Nat), (∀ row ∈ g, row.length = m) →
      r < g.length → c < m →
      g.flatten[m * r + c]? = g[r]?.bind (fun row => row[c]?) := by
  intro g
  induction g with
  | nil => intro r c _ hr _; simp at hr
  | cons row rest ih =>
      intro r c h hr hc
      have hrow : row.length = m := h row (by simp)
      cases r with
      | zero =>
          have hcl : c < row.length := by omega
          simp [List.flatten_cons, List.getElem?_append_left hcl]
      | succ r =>
          have hidx : m * (r + 1) + c = row.length + (m * r + c) := by
            rw [hrow]; ring
          have hrest : ∀ q ∈ rest, q.length = m := fun q hq => h q (by simp [hq])
          have hrl : r < rest.length := by simpa using Nat.lt_of_succ_lt_succ hr
          rw [hidx]
          simp only [List.flatten_cons]
          rw [List.getElem?_append_right (Nat.le_add_right _ _)]
          simp only [Nat.add_sub_cancel_left]
          simpa using ih r c hrest hrl hc

theorem innerLen_eq (s : List (List α)) (m : Nat) (hne : s ≠ [])
    (h : ∀ r ∈ s, r.length = m) : innerLen s = m := by
  cases s with
  | nil => exact absurd rfl hne
  | cons r rest => exact h r (by simp)

theorem transposeMat_length (s : List (List α)) :
    (transposeMat s).length = innerLen s := by
  simp [transposeMat]

theorem transposeMat_getElem (s : List (List α)) (c : Nat) (hc : c < innerLen s) :
    (transposeMat s)[c]? = some (s.filterMap (fun row => row[c]?)) := by
  simp [transposeMat, List.getElem?_range hc]

theorem unflattenBy_flatten :
    ∀ (cs : List Nat) (xs : List α), cs.sum = xs.length →
      (unflattenBy cs xs).flatten = xs := by
  intro cs
  induction cs with
  | nil =>
      intro xs h
      have : xs = [] := by
        cases xs with
        | nil => rfl
        | cons x xs => simp at h
      simp [unflattenBy, this]
  | cons c cs ih =>
      intro xs h
      have hlen : cs.sum = (xs.drop c).length := by
        simp only [List.length_drop]
        simp only [List.sum_cons] at h
        omega
      simp [unflattenBy, List.flatten_cons, ih (xs.drop c) hlen]

/-! Claim C1. -/

/-- Claim C1, as stated, is false: for a rank-2 label tensor and a
matching boolean mask, flattening an equal-shape (hence rank-2)
synthetic prediction tensor with `_flatten_preds` and the same mask does
NOT yield an array of the label's flattened length — `_flatten_preds`
only flattens and masks tensors of rank > 2, and returns a rank-2
prediction untouched.  Concretely, a 2×2 label under a mask with one
true entry flattens to length 1 while the equal-shape prediction keeps
its 2 rows. -/
theorem c1_counterexample :
    ¬ ((flatten_label (Tensor.t2 [[(0 : ℤ), 1], [2, 3]])
          (some (Tensor.t2 [[true, false], [false, false]]))).len
        = (flatten_preds (Tensor.t2 [[(1 : ℚ), 2], [3, 4]])
          (some (Tensor.t2 [[true, false], [false, false]]))).len) := by
  decide

/-- Claim C1, amended: for a rank-2 label tensor of shape (n, m), a
matching boolean mask, and a rank-3 prediction tensor of shape (n, C, m)
— the class axis in the middle, as `_flatten_preds` assumes — flattening
the label and flattening the prediction with the same mask yield arrays
of equal length, position `i` of the two outputs is the label/class-row
pair taken from the same flat row-major coordinate, and flat coordinate
`m*r + c` of the two flattened inputs holds exactly the (r, c) entry of
the label grid and the (r, c) class-score vector of the prediction. -/
theorem c1_flatten_alignment {α β : Type} (g : List (List α)) (mk : List (List Bool))
    (cube : List (List (List β))) (n m C : Nat)
    (hg : g.length = n) (hgr : ∀ r ∈ g, r.length = m)
    (hmk : mk.length = n) (_hmkr : ∀ r ∈ mk, r.length = m)
    (hc : cube.length = n) (hcr : ∀ s ∈ cube, s.length = C ∧ ∀ row ∈ s, row.length = m)
    (hC : 0 < C) :
    (flatten_label (Tensor.t2 g) (some (Tensor.t2 mk))).len
        = (flatten_preds (Tensor.t3 cube) (some (Tensor.t2 mk))).len
    ∧ ((flatten_label (Tensor.t2 g) (some (Tensor.t2 mk))).flat.zip
          (flatten_preds (Tensor.t3 cube) (some (Tensor.t2 mk))).rows
        = applyMask (g.flatten.zip (classVecs cube)) mk.flatten)
    ∧ (∀ r c, r < n → c < m →
        g.flatten[m * r + c]? = g[r]?.bind (fun row => row[c]?)
        ∧ (classVecs cube)[m * r + c]?
            = (cube[r]?).map (fun s => s.filterMap (fun row => row[c]?))) := by
  have hrows : ∀ t ∈ cube.map transposeMat, t.length = m := by
    intro t ht
    obtain ⟨s, hs, rfl⟩ := List.mem_map.1 ht
    rcases hcr s hs with ⟨hsC, hsr⟩
    have hne : s ≠ [] := by
      intro hnil
      rw [hnil] at hsC
      simp at hsC
      omega
    rw [transposeMat_length, innerLen_eq s m hne hsr]
  have hlen_g : g.flatten.length = n * m := by
    rw [flatten_length_rect m g hgr, hg]
  have hlen_cv : (classVecs cube).length = n * m := by
    rw [classVecs, flatten_length_rect m _ hrows]
    simp [hc]
  have hflab : flatten_label (Tensor.t2 g) (some (Tensor.t2 mk))
      = Tensor.t1 (applyMask g.flatten mk.flatten) := rfl
  have hfpred : flatten_preds (Tensor.t3 cube) (some (Tensor.t2 mk))
      = Tensor.t2 (applyMask (classVecs cube) mk.flatten) := rfl
  refine ⟨?_, ?_, ?_⟩
  · rw [hflab, hfpred]
    simp only [Tensor.len]
    exact applyMask_length_eq g.flatten (classVecs cube) mk.flatten
      (by rw [hlen_g, hlen_cv])
  · rw [hflab, hfpred]
    simp only [Tensor.flat, Tensor.rows]
    exact (applyMask_zip g.flatten (classVecs cube) mk.flatten
      (by rw [hlen_g, hlen_cv])).symm
  · intro r c hr hcm
    have hrg : r < g.length := by omega
    have hrc : r < cube.length := by omega
    constructor
    · exact flatten_getElem_rect m g r c hgr hrg hcm
    · have h1 : (cube.map transposeMat).flatten[m * r + c]?
          = (cube.map transposeMat)[r]?.bind (fun row => row[c]?) :=
        flatten_getElem_rect m (cube.map transposeMat) r c hrows (by simpa using hrc) hcm
      have hs : cube[r]? = some cube[r] := List.getElem?_eq_getElem hrc
      rcases hcr cube[r] (by simp) with ⟨hsC, hsr⟩
      have hne : cube[r] ≠ [] := by
        intro hnil
        rw [hnil] at hsC
        simp at hsC
        omega
      have hil : innerLen cube[r] = m := innerLen_eq _ m hne hsr
      have h2 : (transposeMat cube[r])[c]?
          = some (cube[r].filterMap (fun row => row[c]?)) :=
        transposeMat_getElem _ c (by rw [hil]; exact hcm)
      rw [classVecs, h1, List.getElem?_map, hs]
      simp [h2]

/-- Witness for C1 amended at a concrete 2×2 label, mask and 2×2×2
prediction. -/
theorem c1_flatten_alignment_witness :
    (flatten_label (Tensor.t2 [[(0 : ℤ), 1], [2, 3]])
        (some (Tensor.t2 [[true, false], [false, true]]))).len
      = (flatten_preds (Tensor.t3 [[[(1 : ℚ), 2], [3, 4]], [[5, 6], [7, 8]]])
        (some (Tensor.t2 [[true, false], [false, true]]))).len
    ∧ ((flatten_label (Tensor.t2 [[(0 : ℤ), 1], [2, 3]])
        (some (Tensor.t2 [[true, false], [false, true]]))).flat.zip
          (flatten_preds (Tensor.t3 [[[(1 : ℚ), 2], [3, 4]], [[5, 6], [7, 8]]])
            (some (Tensor.t2 [[true, false], [false, true]]))).rows
        = applyMask
            (([[ (0 : ℤ), 1], [2, 3]] : List (List ℤ)).flatten.zip
              (classVecs [[[(1 : ℚ), 2], [3, 4]], [[5, 6], [7, 8]]]))
            ([[true, false], [false, true]] : List (List Bool)).flatten) := by
  have h := c1_flatten_alignment [[(0 : ℤ), 1], [2, 3]] [[true, false], [false, true]]
    [[[(1 : ℚ), 2], [3, 4]], [[5, 6], [7, 8]]] 2 2 2
    (by decide) (by decide) (by decide) (by decide) (by decide) (by decide) (by decide)
  exact ⟨h.1, h.2.1⟩

/-! Claim C3. -/

/-- Claim C3: for every hybrid raw output row of width at least
`num_classes + num_targets`, the classification slice `[0:num_classes)`
and the regression slice `[num_classes:num_classes+num_targets)` taken
by the engine after the loss call partition the first
`num_classes + num_targets` columns of the row exactly: concatenated
they reproduce those columns, they have widths `num_classes` and
`num_targets`, and entry `i` of the classification slice is column `i`
of the row while entry `j` of the regression slice is column
`num_classes + j`, so no column is shared and none is left out. -/
theorem c3_hybrid_slices_partition {α : Type} (nc nt : Nat) (row : List α)
    (h : nc + nt ≤ row.length) :
    hybridCatSlice nc row ++ hybridRegSlice nc nt row = row.take (nc + nt)
    ∧ (hybridCatSlice nc row).length = nc
    ∧ (hybridRegSlice nc nt row).length = nt
    ∧ (∀ i, i < nc → (hybridCatSlice nc row)[i]? = row[i]?)
    ∧ (∀ j, j < nt → (hybridRegSlice nc nt row)[j]? = row[nc + j]?) := by
  refine ⟨?_, ?_, ?_, ?_, ?_⟩
  · rw [hybridCatSlice, hybridRegSlice, List.take_add]
  · rw [hybridCatSlice, List.length_take_of_le (by omega)]
  · rw [hybridRegSlice, List.length_take_of_le (by simp; omega)]
  · intro i hi
    rw [hybridCatSlice, List.getElem?_take_of_lt hi]
  · intro j hj
    rw [hybridRegSlice, List.getElem?_take_of_lt hj, List.getElem?_drop]

/-- Witness for C3 at `num_classes = 3`, `num_targets = 2` and a row of
width 5, the instance named by the spec. -/
theorem c3_hybrid_slices_partition_witness :
    hybridCatSlice 3 [(10 : ℚ), 11, 12, 13, 14]
        ++ hybridRegSlice 3 2 [(10 : ℚ), 11, 12, 13, 14]
      = ([(10 : ℚ), 11, 12, 13, 14]).take (3 + 2)
    ∧ (hybridCatSlice 3 [(10 : ℚ), 11, 12, 13, 14]).length = 3
    ∧ (hybridRegSlice 3 2 [(10 : ℚ), 11, 12, 13, 14]).length = 2 := by
  have h := c3_hybrid_slices_partition 3 2 [(10 : ℚ), 11, 12, 13, 14] (by decide)
  exact ⟨h.1, h.2.1, h.2.2.1⟩

/-! Claim C5. -/

theorem convertLabelsJagged_ok (cs : List Nat) :
    ∀ (labelsAcc : List (String × List ℤ)),
      (∀ p ∈ labelsAcc, cs.sum = p.2.length) →
      convertLabelsJagged cs labelsAcc
        = .ok (labelsAcc.map (fun p => (p.1, LabelOut.jagged (unflattenBy cs p.2)))) := by
  intro labelsAcc
  induction labelsAcc with
  | nil => intro _; rfl
  | cons p rest ih =>
      intro h
      have hp : cs.sum = p.2.length := h p (by simp)
      have hrest := ih (fun q hq => h q (by simp [hq]))
      simp [convertLabelsJagged, akUnflatten, hp, hrest]

/-- Claim C5: in a non-training classification evaluation pass where
masks were observed (per-entry valid counts recorded) and the flat score
count differs from the entry count, the conversion block regroups the
flat scores (and each label array) into one jagged sub-sequence per
entry using the recorded counts, and re-flattening that regrouping
reproduces the original flat array exactly and in order; when the flat
count equals the entry count exactly, no regrouping occurs. -/
theorem c5_ragged_roundtrip (scores : List (List ℚ)) (labelsAcc : List (String × List ℤ))
    (entryCount count : Nat) (labelsCounts : List Nat)
    (h1 : labelsCounts.length ≠ 0) (h2 : scores.length ≠ entryCount)
    (h3 : labelsCounts.sum = scores.length)
    (hl : ∀ p ∈ labelsAcc, labelsCounts.sum = p.2.length) :
    convertEvalOutputs scores labelsAcc entryCount count labelsCounts
        = .ok (.jagged (unflattenBy labelsCounts scores),
               labelsAcc.map (fun p => (p.1, LabelOut.jagged (unflattenBy labelsCounts p.2))))
    ∧ (unflattenBy labelsCounts scores).flatten = scores
    ∧ (∀ s2 : List (List ℚ), s2.length = entryCount →
        convertEvalOutputs s2 labelsAcc entryCount count labelsCounts
          = .ok (.flat s2, labelsAcc.map (fun p => (p.1, LabelOut.flat p.2)))) := by
  refine ⟨?_, unflattenBy_flatten labelsCounts scores h3, ?_⟩
  · simp [convertEvalOutputs, h1, h2, akUnflatten, h3,
      convertLabelsJagged_ok labelsCounts labelsAcc hl]
  · intro s2 hs2
    simp [convertEvalOutputs, hs2]

/-- Witness for C5 at a concrete flat score array of five rows regrouped
by counts (1, 3, 1) over three entries. -/
theorem c5_ragged_roundtrip_witness :
    convertEvalOutputs [[(1 : ℚ)], [2], [3], [4], [5]] [("lab", [0, 1, 0, 1, 0])]
        3 5 [1, 3, 1]
      = .ok (.jagged (unflattenBy [1, 3, 1] [[(1 : ℚ)], [2], [3], [4], [5]]),
             [("lab", LabelOut.jagged (unflattenBy [1, 3, 1] [(0 : ℤ), 1, 0, 1, 0]))])
    ∧ (unflattenBy [1, 3, 1] [[(1 : ℚ)], [2], [3], [4], [5]]).flatten
        = [[(1 : ℚ)], [2], [3], [4], [5]] := by
  have h := c5_ragged_roundtrip [[(1 : ℚ)], [2], [3], [4], [5]] [("lab", [0, 1, 0, 1, 0])]
    3 5 [1, 3, 1] (by decide) (by decide) (by decide) (by simp)
  exact ⟨h.1, h.2.1⟩

/-! Claim C6. -/

/-- Claim C6 names a code bug: in a non-training classification
evaluation pass with no mask observed and the flat count a proper
multiple of the entry count, the conversion block computes
`scores.reshape((entry_count, count/entry_count, -1)).transpose((1, 2))`
— but `ndarray.transpose` on a rank-3 array demands a permutation of all
three axes, so the two-axis tuple raises `ValueError` instead of
producing the channel-major transpose the spec describes.  Evaluated at
the concrete failing input of 4 flat scores over 2 entries. -/
theorem c6_reshape_transpose_raises :
    convertEvalOutputs [[(1 : ℚ)], [2], [3], [4]] [("lab", [0, 1, 0, 1])] 2 4 []
      = .error "ValueError: axes dont match array" := by
  rfl

/-! Claim C7. -/

/-- Claim C7 names a code bug: the spec promises that an evaluation pass
with `for_training=False` returns the scalar summary together with the
concatenated scores, labels, targets and observers, but
`evaluate_regression` never reaches its return: its loop body executes
`target.to(devmnon_blocking=True)` — a typo for
`.to(dev, non_blocking=True)` — which raises `TypeError` on the very
first batch, for every batch source with at least one batch (the
epilogue also references the undefined names `eval_reg_metrics` and
`metric_results`). -/
theorem c7_evaluate_regression_raises (forTraining : Bool) (b : RegBatch)
    (rest : List RegBatch) :
    evaluate_regression forTraining (b :: rest)
      = .error "TypeError: to() got an unexpected keyword argument devmnon_blocking" := by
  rfl

/-! Claim C2. -/

theorem train_classification_step_ok {labelName : String} {s s2 : ClassTrainStats}
    {b : ClassBatch} (h : train_classification_step labelName s b = .ok s2) :
    s2.total_loss = s.total_loss + b.loss ∧ s2.num_batches = s.num_batches + 1 := by
  unfold train_classification_step at h
  cases hex : extractClassLabel b.truths labelName with
  | error e => rw [hex] at h; simp at h
  | ok r =>
      obtain ⟨label, mask⟩ := r
      rw [hex] at h
      dsimp only at h
      cases hlr : logitRows b.modelOutput mask with
      | error e => rw [hlr] at h; simp at h
      | ok rows =>
          rw [hlr] at h
          dsimp only at h
          simp only [Except.ok.injEq] at h
          subst h
          simp

theorem evaluate_classification_step_ok {labelName : String} {ft : Bool}
    {sm : List ℚ → List ℚ} {st st2 : ClassEvalState} {b : ClassBatch}
    (h : evaluate_classification_step labelName ft sm st b = .ok st2) :
    st2.total_loss = st.total_loss + b.loss * (classBatchExamples labelName b : ℚ)
    ∧ st2.count = st.count + classBatchExamples labelName b
    ∧ st2.num_batches = st.num_batches + 1
    ∧ st2.targetsAcc = st.targetsAcc := by
  unfold evaluate_classification_step at h
  cases hrq : lookupE b.truths labelName with
  | error e => rw [hrq] at h; simp at h
  | ok raw =>
      rw [hrq] at h
      dsimp only at h
      have hcb : classBatchExamples labelName b
          = (flatten_label raw
              ((b.truths.lookup (labelName ++ "_mask")).map
                (Tensor.map (fun v => v != 0)))).len := by
        simp [classBatchExamples, extractClassLabel, hrq]
      cases hlr : logitRows b.modelOutput
          ((b.truths.lookup (labelName ++ "_mask")).map
            (Tensor.map (fun v => v != 0))) with
      | error e => rw [hlr] at h; simp at h
      | ok rows =>
          rw [hlr] at h
          dsimp only at h
          simp only [Except.ok.injEq] at h
          subst h
          simp [hcb]

theorem train_classification_loop_none_ok {labelName : String} :
    ∀ (batches : List ClassBatch) (s st : ClassTrainStats),
      train_classification_loop labelName none s batches = .ok st →
      st.total_loss = s.total_loss + (batches.map (fun b => b.loss)).sum
      ∧ st.num_batches = s.num_batches + batches.length := by
  intro batches
  induction batches with
  | nil =>
      intro s st h
      simp only [train_classification_loop, Except.ok.injEq] at h
      subst h
      simp
  | cons b rest ih =>
      intro s st h
      simp only [train_classification_loop] at h
      cases hstep : train_classification_step labelName s b with
      | error e => rw [hstep] at h; simp at h
      | ok s2 =>
          rw [hstep] at h
          simp only [budgetReached, Bool.false_eq_true, if_false] at h
          obtain ⟨h1, h2⟩ := train_classification_step_ok hstep
          obtain ⟨ih1, ih2⟩ := ih s2 st h
          refine ⟨?_, ?_⟩
          · rw [ih1, h1]
            simp [List.sum_cons]
            ring
          · rw [ih2, h2]
            simp
            omega

theorem evaluate_classification_loop_none_ok {labelName : String} {ft : Bool}
    {sm : List ℚ → List ℚ} :
    ∀ (batches : List ClassBatch) (s st : ClassEvalState),
      evaluate_classification_loop labelName ft sm none s batches = .ok st →
      st.total_loss = s.total_loss
          + (batches.map (fun b => b.loss * (classBatchExamples labelName b : ℚ))).sum
      ∧ st.count = s.count + (batches.map (fun b => classBatchExamples labelName b)).sum := by
  intro batches
  induction batches with
  | nil =>
      intro s st h
      simp only [evaluate_classification_loop, Except.ok.injEq] at h
      subst h
      simp
  | cons b rest ih =>
      intro s st h
      simp only [evaluate_classification_loop] at h
      cases hstep : evaluate_classification_step labelName ft sm s b with
      | error e => rw [hstep] at h; simp at h
      | ok s2 =>
          rw [hstep] at h
          simp only [budgetReached, Bool.false_eq_true, if_false] at h
          obtain ⟨h1, h2, _, _⟩ := evaluate_classification_step_ok hstep
          obtain ⟨ih1, ih2⟩ := ih s2 st h
          refine ⟨?_, ?_⟩
          · rw [ih1, h1]
            simp [List.sum_cons]
            ring
          · rw [ih2, h2]
            simp [List.sum_cons]
            omega

/-- Claim C2: over an epoch of `n` batches with example counts
`c_1..c_n` and batch losses `l_1..l_n`, the average loss reported by an
evaluation pass (`total_loss / count`, with `total_loss += loss *
num_examples`) is the weighted mean `Σ(l_i·c_i) / Σc_i`, while the
average loss reported by a training pass (`total_loss / num_batches`,
with `total_loss += loss`) is the unweighted mean `Σl_i / n`. -/
theorem c2_avg_loss_reported (labelName : String) (ft : Bool) (sm : List ℚ → List ℚ) :
    (∀ (batches : List ClassBatch) (st : ClassTrainStats),
        train_classification_loop labelName none initClassTrainStats batches = .ok st →
        st.total_loss / (st.num_batches : ℚ)
          = (batches.map (fun b => b.loss)).sum / (batches.length : ℚ))
    ∧ (∀ (batches : List ClassBatch) (st : ClassEvalState),
        evaluate_classification_loop labelName ft sm none initClassEvalState batches
            = .ok st →
        st.total_loss / (st.count : ℚ)
          = (batches.map (fun b => b.loss * (classBatchExamples labelName b : ℚ))).sum
            / (batches.map (fun b => (classBatchExamples labelName b : ℚ))).sum) := by
  constructor
  · intro batches st h
    obtain ⟨h1, h2⟩ := train_classification_loop_none_ok batches initClassTrainStats st h
    rw [h1, h2]
    simp [initClassTrainStats]
  · intro batches st h
    obtain ⟨h1, h2⟩ := evaluate_classification_loop_none_ok batches initClassEvalState st h
    rw [h1, h2]
    simp only [initClassEvalState, Nat.zero_add, zero_add]
    rw [Nat.cast_list_sum, List.map_map]
    rfl

/-- Witness for C2: a one-batch training run with loss 1 and a one-batch
evaluation run with loss 2 over two examples, both computed
concretely. -/
theorem c2_avg_loss_reported_witness :
    ((⟨1, 1, 1, 1, [0]⟩ : ClassTrainStats).total_loss
        / ((⟨1, 1, 1, 1, [0]⟩ : ClassTrainStats).num_batches : ℚ)
      = (([(⟨[("lab", Tensor.t1 [0])], Tensor.t2 [[1, 0]], 1, []⟩ : ClassBatch)].map
          (fun b => b.loss)).sum)
        / (([(⟨[("lab", Tensor.t1 [0])], Tensor.t2 [[1, 0]], 1, []⟩ : ClassBatch)].length : ℚ)))
    ∧ ((⟨4, 1, 2, 2, 2, [0, 1], [[1, 0], [0, 1]], [("lab", [0, 1])], [], [], []⟩ :
          ClassEvalState).total_loss
        / ((⟨4, 1, 2, 2, 2, [0, 1], [[1, 0], [0, 1]], [("lab", [0, 1])], [], [], []⟩ :
          ClassEvalState).count : ℚ)
      = (([(⟨[("lab", Tensor.t1 [0, 1])], Tensor.t2 [[1, 0], [0, 1]], 2, []⟩ : ClassBatch)].map
          (fun b => b.loss * (classBatchExamples "lab" b : ℚ))).sum)
        / (([(⟨[("lab", Tensor.t1 [0, 1])], Tensor.t2 [[1, 0], [0, 1]], 2, []⟩ : ClassBatch)].map
          (fun b => (classBatchExamples "lab" b : ℚ))).sum)) := by
  have ht : train_classification_loop "lab" none initClassTrainStats
      [⟨[("lab", Tensor.t1 [0])], Tensor.t2 [[1, 0]], 1, []⟩] = .ok ⟨1, 1, 1, 1, [0]⟩ := by
    simp [train_classification_loop, train_classification_step, extractClassLabel,
      lookupE, logitRows, flatten_preds, flatten_label, budgetReached, Tensor.len,
      Tensor.flat, argmaxIdx, countMatches, applyMask, initClassTrainStats,
      List.lookup]
    norm_num [List.filter]
  have he : evaluate_classification_loop "lab" false id none initClassEvalState
      [⟨[("lab", Tensor.t1 [0, 1])], Tensor.t2 [[1, 0], [0, 1]], 2, []⟩]
      = .ok ⟨4, 1, 2, 2, 2, [0, 1], [[1, 0], [0, 1]], [("lab", [0, 1])], [], [], []⟩ := by
    simp [evaluate_classification_loop, evaluate_classification_step, lookupE,
      logitRows, flatten_preds, flatten_label, budgetReached, Tensor.len, Tensor.flat,
      argmaxIdx, countMatches, applyMask, initClassEvalState, List.lookup,
      appendAssoc, maskCounts]
    norm_num
  exact ⟨(c2_avg_loss_reported "lab" false id).1
      [⟨[("lab", Tensor.t1 [0])], Tensor.t2 [[1, 0]], 1, []⟩] ⟨1, 1, 1, 1, [0]⟩ ht,
    (c2_avg_loss_reported "lab" false id).2
      [⟨[("lab", Tensor.t1 [0, 1])], Tensor.t2 [[1, 0], [0, 1]], 2, []⟩]
      ⟨4, 1, 2, 2, 2, [0, 1], [[1, 0], [0, 1]], [("lab", [0, 1])], [], [], []⟩ he⟩

/-! Claim C10. -/

theorem evaluate_classification_loop_targets {labelName : String} {ft : Bool}
    {sm : List ℚ → List ℚ} {k : Option Nat} :
    ∀ (batches : List ClassBatch) (s st : ClassEvalState),
      evaluate_classification_loop labelName ft sm k s batches = .ok st →
      st.targetsAcc = s.targetsAcc := by
  intro batches
  induction batches with
  | nil =>
      intro s st h
      simp only [evaluate_classification_loop, Except.ok.injEq] at h
      subst h
      rfl
  | cons b rest ih =>
      intro s st h
      simp only [evaluate_classification_loop] at h
      cases hstep : evaluate_classification_step labelName ft sm s b with
      | error e => rw [hstep] at h; simp at h
      | ok s2 =>
          rw [hstep] at h
          dsimp only at h
          obtain ⟨_, _, _, h4⟩ := evaluate_classification_step_ok hstep
          by_cases hbud : budgetReached k s2.num_batches
          · rw [if_pos hbud] at h
            simp only [Except.ok.injEq] at h
            subst h
            exact h4
          · rw [if_neg hbud] at h
            rw [ih s2 st h]
            exact h4

/-- Claim C10: every normal return of `evaluate_classification` with
`for_training=False` carries the empty mapping as its targets component
— no code path of the classification evaluation loop ever writes into
the `targets` accumulator, whatever the batches were. -/
theorem c10_targets_component_empty (labelName : String) (sm : List ℚ → List ℚ)
    (k : Option Nat) (batches : List ClassBatch) (res : ClassEvalReturn)
    (h : evaluate_classification labelName false sm k batches = .ok res) :
    res.targetsOf = some [] := by
  unfold evaluate_classification at h
  cases hloop : evaluate_classification_loop labelName false sm k initClassEvalState
      batches with
  | error e => rw [hloop] at h; simp at h
  | ok st =>
      rw [hloop] at h
      dsimp only at h
      by_cases hnb : st.num_batches = 0
      · rw [if_pos hnb] at h
        simp at h
      · rw [if_neg hnb] at h
        cases hconv : convertEvalOutputs st.scores st.labelsAcc st.entry_count st.count
            st.labels_counts with
        | error e => rw [hconv] at h; simp at h
        | ok pair =>
            obtain ⟨scoresOut, labelsOut⟩ := pair
            rw [hconv] at h
            simp only [Bool.false_eq_true, if_false, Except.ok.injEq] at h
            subst h
            have := evaluate_classification_loop_targets batches initClassEvalState st hloop
            simp [ClassEvalReturn.targetsOf, this, initClassEvalState]

/-- Witness for C10: a concrete one-batch evaluation returning the full
five components with an empty targets mapping. -/
theorem c10_targets_component_empty_witness :
    (ClassEvalReturn.full 1 (ScoresOut.flat [[1, 0], [0, 1]])
        [("lab", LabelOut.flat [0, 1])] [] []).targetsOf = some [] := by
  have h : evaluate_classification "lab" false id none
      [⟨[("lab", Tensor.t1 [0, 1])], Tensor.t2 [[1, 0], [0, 1]], 2, []⟩]
      = .ok (ClassEvalReturn.full 1 (ScoresOut.flat [[1, 0], [0, 1]])
          [("lab", LabelOut.flat [0, 1])] [] []) := by
    simp [evaluate_classification, evaluate_classification_loop,
      evaluate_classification_step, lookupE, logitRows, flatten_preds, flatten_label,
      budgetReached, Tensor.len, Tensor.flat, argmaxIdx, countMatches, applyMask,
      initClassEvalState, List.lookup, appendAssoc, maskCounts, convertEvalOutputs]
    norm_num
  exact c10_targets_component_empty "lab" id none
    [⟨[("lab", Tensor.t1 [0, 1])], Tensor.t2 [[1, 0], [0, 1]], 2, []⟩]
    (ClassEvalReturn.full 1 (ScoresOut.flat [[1, 0], [0, 1]])
      [("lab", LabelOut.flat [0, 1])] [] []) h

/-! Claim C9. -/

/-- Claim C9: when the truths mapping of a classification batch lacks
the key `label_name + "_mask"`, extraction proceeds exactly as with no
mask — the lookup failure is absorbed (no exception escapes), the
flattened label keeps every position of the raw label in order, and the
evaluation loop records no per-entry counts for the batch.  The shared
`extractClassLabel` is the extraction used by the training loop, and the
final conjunct states the evaluation-loop step. -/
theorem c9_missing_mask_is_no_mask (labelName : String) (b : ClassBatch)
    (raw : Tensor ℤ)
    (hm : b.truths.lookup (labelName ++ "_mask") = none)
    (hr : b.truths.lookup labelName = some raw) :
    extractClassLabel b.truths labelName = .ok (flatten_label raw none, none)
    ∧ (flatten_label raw none).flat = raw.flat
    ∧ (∀ (ft : Bool) (sm : List ℚ → List ℚ) (st st2 : ClassEvalState),
        evaluate_classification_step labelName ft sm st b = .ok st2 →
        st2.labels_counts = st.labels_counts
        ∧ st2.count = st.count + (flatten_label raw none).len) := by
  have hl : lookupE b.truths labelName = .ok raw := by simp [lookupE, hr]
  refine ⟨?_, ?_, ?_⟩
  · simp [extractClassLabel, hl, hm]
  · cases raw <;> simp [flatten_label, Tensor.ndim, Tensor.flat]
  · intro ft sm st st2 h
    unfold evaluate_classification_step at h
    rw [hl] at h
    dsimp only at h
    have hmask : (b.truths.lookup (labelName ++ "_mask")).map
        (Tensor.map (fun v => v != 0)) = none := by
      rw [hm]
      rfl
    rw [hmask] at h
    dsimp only at h
    cases hlr : logitRows b.modelOutput none with
    | error e =>
        rw [hlr] at h
        simp at h
    | ok rows =>
        rw [hlr] at h
        dsimp only at h
        simp only [Except.ok.injEq] at h
        subst h
        simp

/-- Witness for C9 at a concrete batch whose truths hold only the label
key. -/
theorem c9_missing_mask_is_no_mask_witness :
    extractClassLabel ([("lab", Tensor.t2 [[0, 1], [2, 3]])] : List (String × Tensor ℤ))
        "lab" = .ok (flatten_label (Tensor.t2 [[0, 1], [2, 3]]) none, none)
    ∧ (flatten_label (Tensor.t2 [[(0 : ℤ), 1], [2, 3]]) none).flat
        = (Tensor.t2 [[(0 : ℤ), 1], [2, 3]]).flat := by
  have h := c9_missing_mask_is_no_mask "lab"
    ⟨[("lab", Tensor.t2 [[0, 1], [2, 3]])], Tensor.t2 [[1, 0]], 0, []⟩
    (Tensor.t2 [[0, 1], [2, 3]]) (by decide) (by decide)
  exact ⟨h.1, h.2.1⟩

/-! Claim C4. -/

theorem HybridTrainStats.add_assoc (a b c : HybridTrainStats) :
    (a.add b).add c = a.add (b.add c) := by
  simp only [HybridTrainStats.add, HybridTrainStats.mk.injEq]
  refine ⟨by ring, by ring, by ring, by omega, by omega, by omega, by ring, by ring,
    by simp⟩

theorem HybridTrainStats.add_init (s : HybridTrainStats) :
    s.add initHybridTrainStats = s := by
  simp [HybridTrainStats.add, initHybridTrainStats]

theorem train_hybrid_step_add (nc nt : Nat) (s : HybridTrainStats) (b : HybridBatch) :
    train_hybrid_step nc nt s b
      = s.add (train_hybrid_step nc nt initHybridTrainStats b) := by
  cases hb : b.modelOutput <;>
    simp [train_hybrid_step, HybridTrainStats.add, initHybridTrainStats, hb]

theorem train_hybrid_loop_none (nc nt : Nat) :
    ∀ (l : List HybridBatch) (s : HybridTrainStats),
      train_hybrid_loop nc nt none s l = l.foldl (train_hybrid_step nc nt) s := by
  intro l
  induction l with
  | nil => intro s; rfl
  | cons b rest ih =>
      intro s
      cases hb : b.modelOutput <;>
        simp [train_hybrid_loop, budgetReached, hb, ih]

theorem train_hybrid_foldl_add (nc nt : Nat) :
    ∀ (l : List HybridBatch) (s t : HybridTrainStats),
      l.foldl (train_hybrid_step nc nt) (s.add t)
        = s.add (l.foldl (train_hybrid_step nc nt) t) := by
  intro l
  induction l with
  | nil => intro s t; rfl
  | cons b rest ih =>
      intro s t
      simp only [List.foldl_cons]
      rw [train_hybrid_step_add nc nt (s.add t) b, HybridTrainStats.add_assoc,
        ← train_hybrid_step_add nc nt t b]
      exact ih s (train_hybrid_step nc nt t b)

theorem train_hybrid_foldl_from (nc nt : Nat) (l : List HybridBatch)
    (x : HybridTrainStats) :
    l.foldl (train_hybrid_step nc nt) x
      = x.add (l.foldl (train_hybrid_step nc nt) initHybridTrainStats) := by
  conv_lhs => rw [← HybridTrainStats.add_init x]
  exact train_hybrid_foldl_add nc nt l x initHybridTrainStats

/-- Claim C4, as stated, is false for the evaluation loop: in
`evaluate_hybrid` a batch whose raw model output is rank-1 raises an
IndexError at the classification slice `model_output[:, :nc]` instead of
being absorbed — the zero-filled-placeholder path of that loop only
covers sliced blocks whose row count mismatches the example count.
Evaluated at a concrete rank-1 batch. -/
theorem c4_counterexample :
    evaluate_hybrid_step "lab" ["pt"] 2 1 false id initHybridEvalState
        ⟨Tensor.t1 [0], [[1]], HybridOut.rank1 [1, 2, 3], 0, 0, 0, []⟩
      = .error "IndexError: too many indices for tensor of dimension 1" := by
  rfl

/-- Claim C4, amended: in `train_hybrid` (where `if model_output.dim()
== 1: continue` guards the metric block) a batch with rank-1 raw output
is processed without raising, earns zero classification accuracy credit
and zero residual credit, still contributes its loss components, batch
count and example count, and leaves the statistics accumulated from
every other batch of the epoch unchanged; in `evaluate_hybrid` such a
batch instead raises at the slice (see the counterexample). -/
theorem c4_degenerate_batch_train (nc nt : Nat) (b : HybridBatch) (v : List ℚ)
    (hb : b.modelOutput = .rank1 v) (s0 : HybridTrainStats)
    (pre post : List HybridBatch) :
    (train_hybrid_loop nc nt none s0 (pre ++ b :: post)).total_correct
        = (train_hybrid_loop nc nt none s0 (pre ++ post)).total_correct
    ∧ (train_hybrid_loop nc nt none s0 (pre ++ b :: post)).sum_abs_err
        = (train_hybrid_loop nc nt none s0 (pre ++ post)).sum_abs_err
    ∧ (train_hybrid_loop nc nt none s0 (pre ++ b :: post)).sum_sqr_err
        = (train_hybrid_loop nc nt none s0 (pre ++ post)).sum_sqr_err
    ∧ (train_hybrid_loop nc nt none s0 (pre ++ b :: post)).num_batches
        = (train_hybrid_loop nc nt none s0 (pre ++ post)).num_batches + 1
    ∧ (train_hybrid_loop nc nt none s0 (pre ++ b :: post)).count
        = (train_hybrid_loop nc nt none s0 (pre ++ post)).count
          + max (flatten_label b.label none).len (transposeMat b.targetCols).length
    ∧ (train_hybrid_loop nc nt none s0 (pre ++ b :: post)).total_loss
        = (train_hybrid_loop nc nt none s0 (pre ++ post)).total_loss + b.loss
    ∧ (train_hybrid_loop nc nt none s0 (pre ++ b :: post)).total_cat_loss
        = (train_hybrid_loop nc nt none s0 (pre ++ post)).total_cat_loss + b.lossCat
    ∧ (train_hybrid_loop nc nt none s0 (pre ++ b :: post)).total_reg_loss
        = (train_hybrid_loop nc nt none s0 (pre ++ post)).total_reg_loss + b.lossReg
    ∧ (train_hybrid_loop nc nt none s0 (pre ++ b :: post)).labelCounter.Perm
        ((train_hybrid_loop nc nt none s0 (pre ++ post)).labelCounter
          ++ (flatten_label b.label none).flat) := by
  have hcb : train_hybrid_step nc nt initHybridTrainStats b
      = ⟨b.loss, b.lossCat, b.lossReg, 1,
         max (flatten_label b.label none).len (transposeMat b.targetCols).length,
         0, 0, 0, (flatten_label b.label none).flat⟩ := by
    simp [train_hybrid_step, initHybridTrainStats, hb]
  simp only [train_hybrid_loop_none, List.foldl_append, List.foldl_cons]
  rw [train_hybrid_step_add nc nt (List.foldl (train_hybrid_step nc nt) s0 pre) b, hcb]
  rw [train_hybrid_foldl_from nc nt post, train_hybrid_foldl_from nc nt post
    (List.foldl (train_hybrid_step nc nt) s0 pre)]
  generalize List.foldl (train_hybrid_step nc nt) s0 pre = P
  generalize List.foldl (train_hybrid_step nc nt) initHybridTrainStats post = S
  simp only [HybridTrainStats.add]
  refine ⟨by ring, by ring, by ring, by omega, by omega, by ring, by ring, by ring, ?_⟩
  have h1 : P.labelCounter ++ (flatten_label b.label none).flat ++ S.labelCounter
      = P.labelCounter ++ ((flatten_label b.label none).flat ++ S.labelCounter) := by
    simp [List.append_assoc]
  have h2 : P.labelCounter ++ S.labelCounter ++ (flatten_label b.label none).flat
      = P.labelCounter ++ (S.labelCounter ++ (flatten_label b.label none).flat) := by
    simp [List.append_assoc]
  rw [h1, h2]
  exact List.Perm.append_left P.labelCounter List.perm_append_comm

/-- Witness for C4 amended: a degenerate batch inserted after one
regular batch leaves the accuracy credit of the run unchanged. -/
theorem c4_degenerate_batch_train_witness :
    (train_hybrid_loop 2 1 none initHybridTrainStats
        [⟨Tensor.t1 [0], [[1]], HybridOut.rank2 [[1, 0, 5]], 0, 0, 0, []⟩,
         ⟨Tensor.t1 [0], [[1]], HybridOut.rank1 [0], 0, 0, 0, []⟩]).total_correct
      = (train_hybrid_loop 2 1 none initHybridTrainStats
        [⟨Tensor.t1 [0], [[1]], HybridOut.rank2 [[1, 0, 5]], 0, 0, 0, []⟩]).total_correct := by
  have h := c4_degenerate_batch_train 2 1
    ⟨Tensor.t1 [0], [[1]], HybridOut.rank1 [0], 0, 0, 0, []⟩ [0] rfl
    initHybridTrainStats
    [⟨Tensor.t1 [0], [[1]], HybridOut.rank2 [[1, 0, 5]], 0, 0, 0, []⟩] []
  exact h.1

/-! Claim C8. -/

theorem train_hybrid_step_num_batches (nc nt : Nat) (s : HybridTrainStats)
    (b : HybridBatch) :
    (train_hybrid_step nc nt s b).num_batches = s.num_batches + 1 := by
  cases hb : b.modelOutput <;> simp [train_hybrid_step, hb]

theorem train_classification_loop_budget {labelName : String} {k : Nat} :
    ∀ (batches : List ClassBatch) (s st : ClassTrainStats),
      s.num_batches < k →
      train_classification_loop labelName (some k) s batches = .ok st →
      st.num_batches ≤ k := by
  intro batches
  induction batches with
  | nil =>
      intro s st hs h
      simp only [train_classification_loop, Except.ok.injEq] at h
      subst h
      omega
  | cons b rest ih =>
      intro s st hs h
      simp only [train_classification_loop] at h
      cases hstep : train_classification_step labelName s b with
      | error e => rw [hstep] at h; simp at h
      | ok s2 =>
          rw [hstep] at h
          dsimp only at h
          obtain ⟨_, h2⟩ := train_classification_step_ok hstep
          by_cases hbud : budgetReached (some k) s2.num_batches
          · rw [if_pos hbud] at h
            simp only [Except.ok.injEq] at h
            subst h
            omega
          · rw [if_neg hbud] at h
            simp only [budgetReached, Bool.not_eq_true, decide_eq_false_iff_not] at hbud
            exact ih s2 st (by omega) h

theorem train_hybrid_loop_budget {nc nt k : Nat} :
    ∀ (batches : List HybridBatch) (s : HybridTrainStats),
      (∀ b ∈ batches, ∀ v, b.modelOutput ≠ .rank1 v) →
      s.num_batches < k →
      (train_hybrid_loop nc nt (some k) s batches).num_batches ≤ k := by
  intro batches
  induction batches with
  | nil =>
      intro s _ hs
      simp only [train_hybrid_loop]
      omega
  | cons b rest ih =>
      intro s hnd hs
      simp only [train_hybrid_loop]
      cases hb : b.modelOutput with
      | rank1 v => exact absurd hb (hnd b (by simp) v)
      | rank2 rows =>
          dsimp only
          have hn2 : (train_hybrid_step nc nt s b).num_batches = s.num_batches + 1 :=
            train_hybrid_step_num_batches nc nt s b
          by_cases hbud : budgetReached (some k) (train_hybrid_step nc nt s b).num_batches
          · rw [if_pos hbud]
            omega
          · rw [if_neg hbud]
            simp only [budgetReached, Bool.not_eq_true, decide_eq_false_iff_not] at hbud
            exact ih (train_hybrid_step nc nt s b)
              (fun q hq => hnd q (by simp [hq])) (by omega)

/-- Claim C8, as stated, is false: in `train_hybrid` a degenerate
(rank-1 output) batch reaches `continue` before the step-budget check,
so the check is skipped and the loop keeps accumulating past the budget.
With `steps_per_epoch = 1` and a degenerate first batch followed by a
regular one, two batches are accumulated into the running statistics. -/
theorem c8_counterexample :
    (train_hybrid_loop 2 1 (some 1) initHybridTrainStats
        [⟨Tensor.t1 [0], [[1]], HybridOut.rank1 [0], 0, 0, 0, []⟩,
         ⟨Tensor.t1 [0], [[1]], HybridOut.rank2 [[1, 0, 5]], 0, 0, 0, []⟩]).num_batches = 2
    ∧ 1 < 2 := by
  exact ⟨rfl, by decide⟩

/-- Claim C8, amended: with a step budget `k ≥ 1`, the
`train_classification` loop never accumulates more than `k` batches —
reaching the budget breaks right after the in-flight batch — and the
`train_hybrid` loop obeys the same bound provided no batch is degenerate
(a rank-1-output batch skips the budget check via `continue`, and only
then can the count exceed the budget, as the counterexample shows). -/
theorem c8_step_budget_bound (labelName : String) (nc nt k : Nat) (hk : 1 ≤ k) :
    (∀ (batches : List ClassBatch) (st : ClassTrainStats),
        train_classification_loop labelName (some k) initClassTrainStats batches
            = .ok st →
        st.num_batches ≤ k)
    ∧ (∀ (batches : List HybridBatch),
        (∀ b ∈ batches, ∀ v, b.modelOutput ≠ .rank1 v) →
        (train_hybrid_loop nc nt (some k) initHybridTrainStats batches).num_batches
          ≤ k) := by
  constructor
  · intro batches st h
    exact train_classification_loop_budget batches initClassTrainStats st
      (by simp [initClassTrainStats]; omega) h
  · intro batches hnd
    exact train_hybrid_loop_budget batches initHybridTrainStats hnd
      (by simp [initHybridTrainStats]; omega)

/-- Witness for C8 amended: one-batch runs under budget 1 stay at one
batch for both loops. -/
theorem c8_step_budget_bound_witness :
    (⟨1, 1, 1, 1, [0]⟩ : ClassTrainStats).num_batches ≤ 1
    ∧ (train_hybrid_loop 2 1 (some 1) initHybridTrainStats
        [⟨Tensor.t1 [0], [[1]], HybridOut.rank2 [[1, 0, 5]], 0, 0, 0, []⟩]).num_batches
      ≤ 1 := by
  have ht : train_classification_loop "lab" (some 1) initClassTrainStats
      [⟨[("lab", Tensor.t1 [0])], Tensor.t2 [[1, 0]], 1, []⟩] = .ok ⟨1, 1, 1, 1, [0]⟩ := by
    simp [train_classification_loop, train_classification_step, extractClassLabel,
      lookupE, logitRows, flatten_preds, flatten_label, budgetReached, Tensor.len,
      Tensor.flat, argmaxIdx, countMatches, applyMask, initClassTrainStats,
      List.lookup]
    norm_num [List.filter]
  exact ⟨(c8_step_budget_bound "lab" 2 1 1 (by decide)).1
      [⟨[("lab", Tensor.t1 [0])], Tensor.t2 [[1, 0]], 1, []⟩] ⟨1, 1, 1, 1, [0]⟩ ht,
    (c8_step_budget_bound "lab" 2 1 1 (by decide)).2
      [⟨Tensor.t1 [0], [[1]], HybridOut.rank2 [[1, 0, 5]], 0, 0, 0, []⟩]
      (by intro b hb v; simp at hb; subst hb; simp)⟩

end Weaver
